import Mathlib

/-!
Shallow embedding of `procrastinate/testing.py` (the `InMemoryConnector`
job store) and proofs about its dispatch/lifecycle operations.

Modelling conventions:
* Python dict `self.jobs` (insertion-ordered, keyed by unique ids) is a
  `List Job` in insertion order; dict-update-at-key is a `map` guarded by
  an id test, dict-pop is a `filter`.
* `self.events` is an association list `List (Nat × List Event)`.
* Timestamps (`pendulum` datetimes) are integers counting seconds;
  `pendulum.now()` becomes an explicit `now : Int` argument at each call
  site where the Python code reads the clock, and
  `now.subtract(hours=h)` becomes `now - 3600 * h`,
  `now.subtract(seconds=n)` becomes `now - n`.
* A raised `UniqueViolation` is `Except.error ()`; a `KeyError` on a
  missing job id makes the operation return `none`.
* Job `status` stays a `String` exactly as in the source, since
  `set_job_status_run` accepts arbitrary status strings.
-/

namespace Procrastinate

/-- An event row: `{"type": ..., "at": ...}`. -/
structure Event where
  type : String
  at_ : Int
deriving DecidableEq, Repr

/-- A job row, with the fields created by `defer_job_one`. -/
structure Job where
  id : Nat
  queue_name : String
  task_name : String
  lock : Option String
  queueing_lock : Option String
  args : String
  status : String
  scheduled_at : Option Int
  attempts : Nat
deriving DecidableEq, Repr

/-- The mutable state of the `InMemoryConnector`: `self.jobs`,
`self.events`, `self.job_counter`, and the notification slot
(`self.notify_event` as an `Option Bool` flag, `self.notify_channels`). -/
structure Store where
  jobs : List Job
  events : List (Nat × List Event)
  job_counter : Nat
  notify_event : Option Bool
  notify_channels : List String
deriving DecidableEq, Repr

/-- The state produced by `reset()`: empty store, counter at 1. -/
def Store.reset : Store :=
  { jobs := [], events := [], job_counter := 1, notify_event := none,
    notify_channels := [] }

/-- Lookup `self.events[id]`, defaulting to the empty timeline when the
id has no entry. -/
def eventsFor (evs : List (Nat × List Event)) (id : Nat) : List Event :=
  match evs.find? (fun p => p.1 == id) with
  | some p => p.2
  | none => []

/-- Lookup `self.events[id]` as an optional entry (to distinguish a
missing key from an empty timeline). -/
def eventsEntry (evs : List (Nat × List Event)) (id : Nat) : Option (List Event) :=
  (evs.find? (fun p => p.1 == id)).map (fun p => p.2)

/-- `self.events[id].append(e)` (a no-op when the key is absent; every
job created by `defer_job_one` has an entry). -/
def appendEvent (evs : List (Nat × List Event)) (id : Nat) (e : Event) :
    List (Nat × List Event) :=
  evs.map (fun p => if p.1 == id then (p.1, p.2 ++ [e]) else p)

/-- `defer_job_one`: refuses (UniqueViolation) when any existing job row
has `job["queueing_lock"] == queueing_lock` (Python `==`, so `None`
compares equal to `None`); otherwise allocates the next id, records the
job with status `"todo"`, writes the initial events (a `scheduled` event
when a schedule time was given, then always a `deferred` event), and
raises the notification flag when a listener subscribed to the wildcard
channel or to this queue's channel. -/
def defer_job_one (s : Store) (task_name : String)
    (lock queueing_lock : Option String) (args : String)
    (scheduled_at : Option Int) (queue : String) (now : Int) :
    Except Unit (Job × Store) :=
  if s.jobs.any (fun job => job.queueing_lock == queueing_lock) then
    Except.error ()
  else
    let id := s.job_counter
    let job_row : Job :=
      { id := id, queue_name := queue, task_name := task_name, lock := lock,
        queueing_lock := queueing_lock, args := args, status := "todo",
        scheduled_at := scheduled_at, attempts := 0 }
    let evs : List Event :=
      (match scheduled_at with
        | some t => [{ type := "scheduled", at_ := t }]
        | none => []) ++ [{ type := "deferred", at_ := now }]
    let notify : Option Bool :=
      match s.notify_event with
      | some b =>
          if s.notify_channels.contains "procrastinate_any_queue"
              || s.notify_channels.contains ("procrastinate_queue#" ++ queue) then
            some true
          else some b
      | none => none
    Except.ok (job_row,
      { jobs := s.jobs ++ [job_row],
        events := s.events ++ [(id, evs)],
        job_counter := s.job_counter + 1,
        notify_event := notify,
        notify_channels := s.notify_channels })

/-- `current_locks`: the lock values of all jobs whose status is
`"doing"` (the source builds a set; only membership is ever used, so a
list of the same elements is an equivalent model). Note that a `doing`
job whose lock is `None` contributes a `none` element. -/
def current_locks (s : Store) : List (Option String) :=
  (s.jobs.filter (fun job => job.status == "doing")).map (fun job => job.lock)

/-- The `scheduled_at` guard of `fetch_job_one`:
`not job["scheduled_at"] or job["scheduled_at"] <= pendulum.now("UTC")`. -/
def sched_ok (job : Job) (now : Int) : Bool :=
  match job.scheduled_at with
  | none => true
  | some t => decide (t ≤ now)

/-- The full eligibility test of `fetch_job_one`'s scan, evaluated
against the store as it is at the start of the scan (the Python loop
recomputes `self.current_locks` each iteration, but nothing mutates
before the first match, so the value is constant during the scan). -/
def fetch_pred (s : Store) (queues : Option (List String)) (now : Int)
    (job : Job) : Bool :=
  job.status == "todo"
    && (match queues with
        | none => true
        | some qs => qs.contains job.queue_name)
    && sched_ok job now
    && !((current_locks s).contains job.lock)

/-- The scan of `fetch_job_one` over `self.jobs.values()` in insertion
order: returns the first eligible job with its status set to `"doing"`,
together with the updated job list. -/
def fetch_aux (s : Store) (queues : Option (List String)) (now : Int) :
    List Job → Option Job × List Job
  | [] => (none, [])
  | job :: rest =>
    if fetch_pred s queues now job then
      ((some { job with status := "doing" }), { job with status := "doing" } :: rest)
    else
      let r := fetch_aux s queues now rest
      (r.1, job :: r.2)

/-- `fetch_job_one`: scans jobs in creation order; on the first eligible
job, marks it `"doing"`, appends a `started` event, and returns it; when
no job qualifies returns the sentinel (`{"id": None}`, modelled as
`none`) and leaves the store unchanged. -/
def fetch_job_one (s : Store) (queues : Option (List String)) (now : Int) :
    Option Job × Store :=
  match fetch_aux s queues now s.jobs with
  | (some job, jobs) =>
      (some job,
        { s with jobs := jobs,
                 events := appendEvent s.events job.id
                   { type := "started", at_ := now } })
  | (none, _) => (none, s)

/-- `finish_job_run`: sets the job's status; when the target status is
`"todo"` additionally increments `attempts`, overwrites `scheduled_at`
with the supplied value, appends a `scheduled` event when that value is
non-null, and logs `deferred_for_retry` instead of the status name;
always appends one final event. Returns `none` on a missing job id
(Python `KeyError`). -/
def finish_job_run (s : Store) (job_id : Nat) (status : String)
    (scheduled_at : Option Int) (now : Int) : Option Store :=
  if s.jobs.any (fun j => j.id == job_id) then
    if status == "todo" then
      let evs1 :=
        match scheduled_at with
        | some t => appendEvent s.events job_id { type := "scheduled", at_ := t }
        | none => s.events
      some { s with
        jobs := s.jobs.map (fun j =>
          if j.id == job_id then
            { j with status := status, attempts := j.attempts + 1,
                     scheduled_at := scheduled_at }
          else j),
        events := appendEvent evs1 job_id
          { type := "deferred_for_retry", at_ := now } }
    else
      some { s with
        jobs := s.jobs.map (fun j =>
          if j.id == job_id then { j with status := status } else j),
        events := appendEvent s.events job_id { type := status, at_ := now } }
  else none

/-- `select_stalled_jobs_all`: the jobs of status `"doing"` whose last
event (`self.events[id][-1]`) is strictly older than
`now - nb_seconds`, filtered by the optional queue and task name
(`queue in (job["queue_name"], None)`). A job with no event entry makes
the Python generator raise; the model excludes it. -/
def select_stalled_jobs_all (s : Store) (nb_seconds : Int)
    (queue task_name : Option String) (now : Int) : List Job :=
  s.jobs.filter (fun job =>
    job.status == "doing"
      && (match (eventsFor s.events job.id).getLast? with
          | some e => decide (e.at_ < now - nb_seconds)
          | none => false)
      && (queue == some job.queue_name || queue == none)
      && (task_name == some job.task_name || task_name == none))

/-- `max(e["at"] for e in events)`, `none` on the empty list (where
Python `max` raises). -/
def max_event_at : List Event → Option Int
  | [] => none
  | e :: rest =>
    match max_event_at rest with
    | none => some e.at_
    | some m => some (max e.at_ m)

/-- The deletion test of `delete_old_jobs_run`. -/
def delete_cond (s : Store) (nb_hours : Int) (queue : Option String)
    (statuses : List String) (now : Int) (job : Job) : Bool :=
  statuses.contains job.status
    && (match max_event_at (eventsFor s.events job.id) with
        | some m => decide (m < now - 3600 * nb_hours)
        | none => false)
    && (queue == some job.queue_name || queue == none)

/-- `delete_old_jobs_run`: pops every matching job from `self.jobs`.
The source iterates over a snapshot of the items and pops matching ids;
with unique ids this is exactly a filter. Note the source never touches
`self.events`. -/
def delete_old_jobs_run (s : Store) (nb_hours : Int) (queue : Option String)
    (statuses : List String) (now : Int) : Store :=
  { s with jobs := s.jobs.filter (fun job =>
      !(delete_cond s nb_hours queue statuses now job)) }

/-- `set_job_status_run`: `self.jobs[id]["status"] = status`. Returns
`none` on a missing id (Python `KeyError`). -/
def set_job_status_run (s : Store) (id : Nat) (status : String) :
    Option Store :=
  if s.jobs.any (fun j => j.id == id) then
    some { s with jobs := s.jobs.map (fun j =>
      if j.id == id then { j with status := status } else j) }
  else none

/-- `listen_notify`: registers the (single) wake event, initially unset,
and the subscribed channels. -/
def listen_notify (s : Store) (channels : List String) : Store :=
  { s with notify_event := some false, notify_channels := channels }

/-- One store operation, with the clock reading passed explicitly. -/
inductive Op where
  | defer (task_name : String) (lock queueing_lock : Option String)
      (args : String) (scheduled_at : Option Int) (queue : String) (now : Int)
  | fetch (queues : Option (List String)) (now : Int)
  | finish (job_id : Nat) (status : String) (scheduled_at : Option Int)
      (now : Int)
  | stalled (nb_seconds : Int) (queue task_name : Option String) (now : Int)
  | delete (nb_hours : Int) (queue : Option String) (statuses : List String)
      (now : Int)
  | setStatus (id : Nat) (status : String)
  | listen (channels : List String)
deriving DecidableEq, Repr

/-- The state transition of one operation (a raised exception leaves the
store unchanged, since each handler raises before mutating anything). -/
def applyOp (s : Store) : Op → Store
  | .defer t l ql a sc q now =>
    match defer_job_one s t l ql a sc q now with
    | .ok (_, s') => s'
    | .error _ => s
  | .fetch qs now => (fetch_job_one s qs now).2
  | .finish id st sc now => (finish_job_run s id st sc now).getD s
  | .stalled _ _ _ _ => s
  | .delete nb q sts now => delete_old_jobs_run s nb q sts now
  | .setStatus id st => (set_job_status_run s id st).getD s
  | .listen chs => listen_notify s chs

/-- Run a sequence of operations from the freshly reset store. -/
def runOps (ops : List Op) : Store := ops.foldl applyOp Store.reset

/-- A store state reachable from the empty store by the store's
operations. -/
def Reachable (s : Store) : Prop := ∃ ops : List Op, runOps ops = s

/-- Two job rows clash when both are `doing` and share a non-null lock. -/
def conflict (a b : Job) : Prop :=
  a.status = "doing" ∧ b.status = "doing" ∧ a.lock ≠ none ∧ a.lock = b.lock

instance (a b : Job) : Decidable (conflict a b) := by
  unfold conflict; infer_instance

/-- The lock-exclusion property: no two jobs of the store share a
non-null lock while both are in status `doing`. -/
def lockExclusion (s : Store) : Prop :=
  s.jobs.Pairwise (fun a b => ¬ conflict a b)

instance (s : Store) : Decidable (lockExclusion s) := by
  unfold lockExclusion; infer_instance

/-- `self.jobs[id]` as an optional lookup (ids are unique in every
reachable store, so the first hit is the entry). -/
def findJob (s : Store) (id : Nat) : Option Job :=
  s.jobs.find? (fun j => j.id == id)

/-- The eligibility condition of the dispatch claim, stated in the
claim's vocabulary: status is `todo`, the queue filter passes (a null
filter admits all queues), `scheduled_at` is unset or not after the
current time, and the job's lock value is not held by any job in status
`doing`. -/
def eligible (s : Store) (queues : Option (List String)) (now : Int)
    (j : Job) : Prop :=
  j.status = "todo" ∧
  (∀ qs, queues = some qs → j.queue_name ∈ qs) ∧
  (∀ t, j.scheduled_at = some t → t ≤ now) ∧
  ¬ ∃ k, k ∈ s.jobs ∧ k.status = "doing" ∧ k.lock = j.lock

/-- The retention condition of the deletion claim, stated in the claim's
vocabulary: status in the given set, most recent event timestamp older
than now minus the hour threshold, and queue filter passing (null filter
matches any queue). -/
def retention_matches (s : Store) (nb_hours : Int) (queue : Option String)
    (statuses : List String) (now : Int) (j : Job) : Prop :=
  j.status ∈ statuses ∧
  (∃ m, max_event_at (eventsFor s.events j.id) = some m ∧
    m < now - 3600 * nb_hours) ∧
  (queue = none ∨ queue = some j.queue_name)

/-- The operations covered by the amended lock-exclusion invariant:
everything except the test-only `set_job_status_run` backdoor, with
`finish_job_run` restricted to the documented target statuses. -/
def opAllowed : Op → Bool
  | .setStatus _ _ => false
  | .finish _ st _ _ => st == "todo" || st == "succeeded" || st == "failed"
  | _ => true

/-! ### Concrete stores used by counterexamples and witnesses -/

/-- The first submission with a null queueing lock, on the empty store. -/
def c1_first_defer : Except Unit (Job × Store) :=
  defer_job_one Store.reset "task1" none none "a" none "default" 0

/-- The store holding one job whose `queueing_lock` is null. -/
def c1_store : Store :=
  match c1_first_defer with
  | .ok (_, s) => s
  | .error _ => Store.reset

/-- Two null-lock jobs, the first of which has been fetched (status
`doing`, lock `none`); the second is still `todo` with lock `none`. -/
def c2_store : Store :=
  runOps
    [ Op.defer "t1" none (some "a") "x" none "q" 0,
      Op.defer "t2" none (some "b") "x" none "q" 1,
      Op.fetch none 2 ]

/-- A store holding one `failed` job (id 1) with a three-event timeline. -/
def c3_store : Store :=
  runOps
    [ Op.defer "t1" none (some "a") "x" none "q" 0,
      Op.fetch none 1,
      Op.finish 1 "failed" none 2 ]

/-- The operations reaching a store whose only job has succeeded. -/
def c4_ops : List Op :=
  [ Op.defer "t1" none (some "a") "x" none "q" 0,
    Op.fetch none 1,
    Op.finish 1 "succeeded" none 2 ]

/-- A reachable store whose only job (id 1) is in status `succeeded`. -/
def c4_store : Store := runOps c4_ops

/-- Operations that drive two jobs sharing lock `"x"` into status
`doing` at the same time, via `set_job_status_run`. -/
def c5_ops : List Op :=
  [ Op.defer "t1" (some "x") (some "a") "p" none "q" 0,
    Op.defer "t2" (some "x") (some "b") "p" none "q" 1,
    Op.setStatus 1 "doing",
    Op.setStatus 2 "doing" ]

/-- The reachable store with two simultaneously-`doing` jobs on lock
`"x"`. -/
def c5_store : Store := runOps c5_ops

/-- A store holding one `todo` job (id 1) with lock `"l"`, used to
instantiate the universally quantified theorems at a concrete input. -/
def w1_store : Store :=
  runOps [Op.defer "t" (some "l") (some "a") "x" none "q" 0]

/-- The single job record held by `w1_store`. -/
def w1_job : Job :=
  { id := 1, queue_name := "q", task_name := "t", lock := some "l",
    queueing_lock := some "a", args := "x", status := "todo",
    scheduled_at := none, attempts := 0 }

/-- The succeeded job record held by `c4_store`. -/
def c4_job : Job :=
  { id := 1, queue_name := "q", task_name := "t1", lock := none,
    queueing_lock := some "a", args := "x", status := "succeeded",
    scheduled_at := none, attempts := 0 }

/-- An operation sequence (defer, fetch, retry) made only of allowed
operations, for the lock-exclusion witness. -/
def c5w_ops : List Op :=
  [ Op.defer "t1" (some "x") (some "a") "p" none "q" 0,
    Op.fetch none 1,
    Op.finish 1 "todo" (some 3) 2 ]

/-! ### C1, C2: submission-time and dispatch-time null handling -/

/-- C1 (code bug): the claim says a submission with a null
`queueing_lock` always succeeds. In the code, `defer_job_one` compares
with Python `==`, under which `None == None`; so after one job with a
null queueing lock exists, a second null-queueing-lock submission raises
the uniqueness violation. -/
theorem c1_null_queueing_lock_collides :
    c1_first_defer.isOk = true ∧
    c1_store.jobs.map Job.queueing_lock = [none] ∧
    (defer_job_one c1_store "task2" none none "a" none "default" 1).isOk =
      false := by
  decide

/-- C2 (code bug): the claim says `current_locks` contains no null entry
and that a `todo` job with a null lock stays dispatchable while another
null-lock job is `doing`. In the code, `current_locks` is the raw set of
`lock` values of `doing` jobs, so it contains `none` here, and
`fetch_job_one` therefore skips the eligible null-lock `todo` job and
returns the sentinel. -/
theorem c2_null_lock_excludes :
    none ∈ current_locks c2_store ∧
    c2_store.jobs.map (fun j => (j.status, j.lock, j.scheduled_at)) =
      [("doing", none, none), ("todo", none, none)] ∧
    (fetch_job_one c2_store none 3).1 = none := by
  decide

/-! ### C3: retention does not discard events -/

/-- C3 (counterexample): `delete_old_jobs_run` removes the matching job
(id 1) from the job table, but its events are not discarded — the
`events` table still carries the full timeline for the removed id,
contradicting the claim that all of a removed job's events are discarded
as well. -/
theorem c3_events_survive_deletion :
    c3_store.jobs.map Job.id = [1] ∧
    (delete_old_jobs_run c3_store 1 none ["failed"] 100000).jobs = [] ∧
    eventsEntry (delete_old_jobs_run c3_store 1 none ["failed"] 100000).events 1 =
      some [{ type := "deferred", at_ := 0 }, { type := "started", at_ := 1 },
            { type := "failed", at_ := 2 }] := by
  decide

/-! ### C4, C5: counterexamples via `set_job_status_run` -/

/-- C4 (counterexample): a store with a `succeeded` job is reachable
from the empty store, and the store operation `set_job_status_run`
then moves that job back to `todo` — terminal states are not absorbing
under every store operation. -/
theorem c4_terminal_not_absorbing :
    Reachable c4_store ∧
    c4_store.jobs.map Job.status = ["succeeded"] ∧
    (applyOp c4_store (Op.setStatus 1 "todo")).jobs.map Job.status =
      ["todo"] :=
  ⟨⟨c4_ops, rfl⟩, by decide, by decide⟩

/-- C5 (counterexample): with `set_job_status_run` among the available
operations, a state with two simultaneously-`doing` jobs sharing the
non-null lock `"x"` is reachable from the empty store. -/
theorem c5_lock_exclusion_breakable :
    Reachable c5_store ∧
    c5_store.jobs.map (fun j => (j.status, j.lock)) =
      [("doing", some "x"), ("doing", some "x")] ∧
    ¬ lockExclusion c5_store :=
  ⟨⟨c5_ops, rfl⟩, by decide, by decide⟩

/-! ### Lemmas about the dictionary model -/

/-- `List.contains` agrees with membership for lawful `BEq`. -/
theorem contains_iff_mem {α : Type} [BEq α] [LawfulBEq α] {l : List α}
    {a : α} : l.contains a = true ↔ a ∈ l :=
  List.elem_iff

/-- Finding by one id in a list updated at (possibly another) id: the
update function is applied under the lookup when it preserves ids. -/
theorem find_map_by_id (l : List Job) (k id : Nat) (f : Job → Job)
    (hf : ∀ x, (f x).id = x.id) :
    (l.map (fun x => if x.id == id then f x else x)).find?
        (fun x => x.id == k) =
      (l.find? (fun x => x.id == k)).map
        (fun x => if x.id == id then f x else x) := by
  induction l with
  | nil => rfl
  | cons a l ih =>
    have hid : ((if a.id == id then f a else a).id == k) = (a.id == k) := by
      by_cases h : (a.id == id) = true
      · rw [if_pos h, hf]
      · rw [if_neg h]
    simp only [List.map_cons, List.find?_cons, hid]
    cases h : (a.id == k) with
    | true => rfl
    | false => simpa using ih

/-- A successful lookup means the id-existence test of the handlers
passes. -/
theorem any_id_of_findJob {s : Store} {id : Nat} {j : Job}
    (h : findJob s id = some j) :
    s.jobs.any (fun x => x.id == id) = true := by
  unfold findJob at h
  exact List.any_eq_true.mpr
    ⟨j, List.mem_of_find?_eq_some h,
      List.find?_some (p := fun x : Job => x.id == id) h⟩

/-- Lookup in the events table after the append-at-an-id map. -/
theorem find_pair_append (evs : List (Nat × List Event)) (k id : Nat)
    (e : Event) :
    (appendEvent evs id e).find? (fun p => p.1 == k) =
      (evs.find? (fun p => p.1 == k)).map
        (fun p => if p.1 == id then (p.1, p.2 ++ [e]) else p) := by
  induction evs with
  | nil => rfl
  | cons p evs ih =>
    have hid : ((if p.1 == id then (p.1, p.2 ++ [e]) else p).1 == k) =
        (p.1 == k) := by
      by_cases h : (p.1 == id) = true
      · rw [if_pos h]
      · rw [if_neg h]
    simp only [appendEvent, List.map_cons, List.find?_cons, hid]
    cases h : (p.1 == k) with
    | true => rfl
    | false => simpa [appendEvent] using ih

/-- Appending an event to a timeline shows up under `eventsEntry` at
that id. -/
theorem eventsEntry_appendEvent (evs : List (Nat × List Event)) (id : Nat)
    (e : Event) :
    eventsEntry (appendEvent evs id e) id =
      (eventsEntry evs id).map (fun l => l ++ [e]) := by
  unfold eventsEntry
  rw [find_pair_append]
  cases hx : evs.find? (fun p => p.1 == id) with
  | none => rfl
  | some p =>
    have hp : p.1 = id := by
      simpa using
        List.find?_some (p := fun q : Nat × List Event => q.1 == id) hx
    simp [hp]

/-- Updating the job table at one id leaves lookups at other ids
unchanged (for id-preserving update functions). -/
theorem find_map_by_id_frame (l : List Job) (k id : Nat) (f : Job → Job)
    (hf : ∀ x, (f x).id = x.id) (hk : k ≠ id) :
    (l.map (fun x => if x.id == id then f x else x)).find?
        (fun x => x.id == k) =
      l.find? (fun x => x.id == k) := by
  rw [find_map_by_id l k id f hf]
  cases hx : l.find? (fun x => x.id == k) with
  | none => rfl
  | some x =>
    have hxk : x.id = k := by
      simpa using List.find?_some (p := fun y : Job => y.id == k) hx
    have hne : x.id ≠ id := by rw [hxk]; exact hk
    simp [hne]

/-! ### C10: `set_job_status_run` -/

/-- C10: `set_job_status_run` overwrites the named job's status with the
given value unconditionally (whatever the current status), changes no
other field of that job, leaves every other job alone, and appends no
event — the events table and all remaining store fields are untouched,
so the job's most recent event type need not correspond to its status
afterwards. -/
theorem c10_set_job_status_unconditional (s : Store) (id : Nat)
    (status : String) (j : Job) (h : findJob s id = some j) :
    ∃ s', set_job_status_run s id status = some s' ∧
      findJob s' id = some { j with status := status } ∧
      (∀ k, k ≠ id → findJob s' k = findJob s k) ∧
      s'.events = s.events ∧
      s'.job_counter = s.job_counter ∧
      s'.notify_event = s.notify_event ∧
      s'.notify_channels = s.notify_channels := by
  have hany := any_id_of_findJob h
  have hpj : j.id = id := by
    unfold findJob at h
    simpa using List.find?_some (p := fun x : Job => x.id == id) h
  refine ⟨{ s with jobs := s.jobs.map (fun x =>
      if x.id == id then { x with status := status } else x) },
    ?_, ?_, ?_, rfl, rfl, rfl, rfl⟩
  · unfold set_job_status_run
    rw [if_pos hany]
  · unfold findJob
    show (s.jobs.map _).find? _ = _
    rw [find_map_by_id s.jobs id id
      (fun x => { x with status := status }) (fun x => rfl)]
    unfold findJob at h
    rw [h]
    simp [hpj]
  · intro k hk
    unfold findJob
    show (s.jobs.map _).find? _ = _
    rw [find_map_by_id_frame s.jobs k id
      (fun x => { x with status := status }) (fun x => rfl) hk]

/-! ### C7, C9: `finish_job_run` -/

/-- Full characterisation of `finish_job_run` with target status
`"todo"`: status reset, attempts bumped, `scheduled_at` overwritten with
the supplied value, a `scheduled` event appended exactly when that value
is non-null, then a `deferred_for_retry` event; other jobs unchanged. -/
theorem finish_todo_spec (s : Store) (id : Nat) (sched : Option Int)
    (now : Int) (j : Job) (h : findJob s id = some j) :
    ∃ s', finish_job_run s id "todo" sched now = some s' ∧
      findJob s' id = some { j with
        status := "todo", scheduled_at := sched,
        attempts := j.attempts + 1 } ∧
      eventsEntry s'.events id =
        (eventsEntry s.events id).map (fun l =>
          l ++ (match sched with
                | some t => [{ type := "scheduled", at_ := t }]
                | none => []) ++
            [{ type := "deferred_for_retry", at_ := now }]) ∧
      (∀ k, k ≠ id → findJob s' k = findJob s k) := by
  have hany := any_id_of_findJob h
  have hpj : j.id = id := by
    unfold findJob at h
    simpa using List.find?_some (p := fun x : Job => x.id == id) h
  rcases sched with _ | t
  · refine ⟨{ s with
        jobs := s.jobs.map (fun x => if x.id == id then
          { x with status := "todo", attempts := x.attempts + 1,
                   scheduled_at := none } else x),
        events := appendEvent s.events id
          { type := "deferred_for_retry", at_ := now } }, ?_, ?_, ?_, ?_⟩
    · unfold finish_job_run
      rw [if_pos hany]
      rfl
    · unfold findJob
      show (s.jobs.map _).find? _ = _
      rw [find_map_by_id s.jobs id id
        (fun x => { x with status := "todo", attempts := x.attempts + 1,
                           scheduled_at := none }) (fun x => rfl)]
      unfold findJob at h
      rw [h]
      simp [hpj]
    · show eventsEntry (appendEvent s.events id _) id = _
      rw [eventsEntry_appendEvent]
      cases eventsEntry s.events id <;> simp
    · intro k hk
      unfold findJob
      show (s.jobs.map _).find? _ = _
      rw [find_map_by_id_frame s.jobs k id
        (fun x => { x with status := "todo", attempts := x.attempts + 1,
                           scheduled_at := none }) (fun x => rfl) hk]
  · refine ⟨{ s with
        jobs := s.jobs.map (fun x => if x.id == id then
          { x with status := "todo", attempts := x.attempts + 1,
                   scheduled_at := some t } else x),
        events := appendEvent
          (appendEvent s.events id { type := "scheduled", at_ := t }) id
          { type := "deferred_for_retry", at_ := now } }, ?_, ?_, ?_, ?_⟩
    · unfold finish_job_run
      rw [if_pos hany]
      rfl
    · unfold findJob
      show (s.jobs.map _).find? _ = _
      rw [find_map_by_id s.jobs id id
        (fun x => { x with status := "todo", attempts := x.attempts + 1,
                           scheduled_at := some t }) (fun x => rfl)]
      unfold findJob at h
      rw [h]
      simp [hpj]
    · show eventsEntry (appendEvent (appendEvent s.events id _) id _) id = _
      rw [eventsEntry_appendEvent, eventsEntry_appendEvent]
      cases eventsEntry s.events id <;> simp
    · intro k hk
      unfold findJob
      show (s.jobs.map _).find? _ = _
      rw [find_map_by_id_frame s.jobs k id
        (fun x => { x with status := "todo", attempts := x.attempts + 1,
                           scheduled_at := some t }) (fun x => rfl) hk]

/-- Full characterisation of `finish_job_run` with a non-`"todo"` target
status: the status is set and exactly one event named after the status
is appended; attempts and `scheduled_at` stay; other jobs unchanged. -/
theorem finish_terminal_spec (s : Store) (id : Nat) (status : String)
    (sched : Option Int) (now : Int) (j : Job) (h : findJob s id = some j)
    (hst : (status == "todo") = false) :
    ∃ s', finish_job_run s id status sched now = some s' ∧
      findJob s' id = some { j with status := status } ∧
      eventsEntry s'.events id =
        (eventsEntry s.events id).map
          (fun l => l ++ [{ type := status, at_ := now }]) ∧
      (∀ k, k ≠ id → findJob s' k = findJob s k) := by
  have hany := any_id_of_findJob h
  have hpj : j.id = id := by
    unfold findJob at h
    simpa using List.find?_some (p := fun x : Job => x.id == id) h
  refine ⟨{ s with
      jobs := s.jobs.map (fun x =>
        if x.id == id then { x with status := status } else x),
      events := appendEvent s.events id
        { type := status, at_ := now } }, ?_, ?_, ?_, ?_⟩
  · unfold finish_job_run
    rw [if_pos hany, if_neg (by simp [hst])]
  · unfold findJob
    show (s.jobs.map _).find? _ = _
    rw [find_map_by_id s.jobs id id
      (fun x => { x with status := status }) (fun x => rfl)]
    unfold findJob at h
    rw [h]
    simp [hpj]
  · show eventsEntry (appendEvent s.events id _) id = _
    rw [eventsEntry_appendEvent]
  · intro k hk
    unfold findJob
    show (s.jobs.map _).find? _ = _
    rw [find_map_by_id_frame s.jobs k id
      (fun x => { x with status := status }) (fun x => rfl) hk]

/-- C7: for an existing job, completion with target `"todo"` increments
`attempts` by exactly one, stores the supplied schedule time, appends a
`scheduled` event exactly when a schedule time was given, and always
appends a `deferred_for_retry` event; completion with target
`"succeeded"` or `"failed"` sets that status and appends exactly one
event whose type equals the target status. -/
theorem c7_finish_job_transitions (s : Store) (id : Nat)
    (sched : Option Int) (now : Int) (j : Job) (h : findJob s id = some j) :
    (∃ s', finish_job_run s id "todo" sched now = some s' ∧
      findJob s' id = some { j with
        status := "todo", scheduled_at := sched,
        attempts := j.attempts + 1 } ∧
      eventsEntry s'.events id =
        (eventsEntry s.events id).map (fun l =>
          l ++ (match sched with
                | some t => [{ type := "scheduled", at_ := t }]
                | none => []) ++
            [{ type := "deferred_for_retry", at_ := now }])) ∧
    (∀ status, status = "succeeded" ∨ status = "failed" →
      ∃ s', finish_job_run s id status sched now = some s' ∧
        findJob s' id = some { j with status := status } ∧
        eventsEntry s'.events id =
          (eventsEntry s.events id).map
            (fun l => l ++ [{ type := status, at_ := now }])) := by
  constructor
  · obtain ⟨s', h1, h2, h3, _⟩ := finish_todo_spec s id sched now j h
    exact ⟨s', h1, h2, h3⟩
  · intro status hstat
    have hne : (status == "todo") = false := by
      rcases hstat with hstat | hstat <;> subst hstat <;> decide
    obtain ⟨s', h1, h2, h3, _⟩ :=
      finish_terminal_spec s id status sched now j h hne
    exact ⟨s', h1, h2, h3⟩

/-- Witness for C7: the theorem applied to the concrete one-job store. -/
theorem c7_finish_job_transitions_witness :
    findJob w1_store 1 = some w1_job ∧
    ((∃ s', finish_job_run w1_store 1 "todo" (some 42) 5 = some s' ∧
      findJob s' 1 = some { w1_job with
        status := "todo", scheduled_at := some 42,
        attempts := w1_job.attempts + 1 } ∧
      eventsEntry s'.events 1 =
        (eventsEntry w1_store.events 1).map (fun l =>
          l ++ (match (some 42 : Option Int) with
                | some t => [{ type := "scheduled", at_ := t }]
                | none => []) ++
            [{ type := "deferred_for_retry", at_ := 5 }])) ∧
    (∀ status, status = "succeeded" ∨ status = "failed" →
      ∃ s', finish_job_run w1_store 1 status (some 42) 5 = some s' ∧
        findJob s' 1 = some { w1_job with status := status } ∧
        eventsEntry s'.events 1 =
          (eventsEntry w1_store.events 1).map
            (fun l => l ++ [{ type := status, at_ := 5 }]))) :=
  ⟨by decide, c7_finish_job_transitions w1_store 1 (some 42) 5 w1_job (by decide)⟩

/-- C9: completion with target `"todo"` overwrites `scheduled_at` with
the supplied value unconditionally; in particular, when no schedule time
is supplied the previous one is cleared to null and the dispatch
schedule guard then passes at every clock reading. -/
theorem c9_retry_overwrites_schedule (s : Store) (id : Nat)
    (sched : Option Int) (now : Int) (j : Job) (h : findJob s id = some j) :
    ∃ s', finish_job_run s id "todo" sched now = some s' ∧
      (findJob s' id).map Job.scheduled_at = some sched ∧
      (sched = none → ∀ later : Int,
        (findJob s' id).map (fun x => sched_ok x later) = some true) := by
  obtain ⟨s', h1, h2, _, _⟩ := finish_todo_spec s id sched now j h
  refine ⟨s', h1, ?_, ?_⟩
  · rw [h2]
    rfl
  · intro hnone later
    subst hnone
    rw [h2]
    rfl

/-- Witness for C9 at a store whose job carries a schedule to clear. -/
theorem c9_retry_overwrites_schedule_witness :
    findJob w1_store 1 = some w1_job ∧
    (∃ s', finish_job_run w1_store 1 "todo" none 7 = some s' ∧
      (findJob s' 1).map Job.scheduled_at = some none ∧
      ((none : Option Int) = none → ∀ later : Int,
        (findJob s' 1).map (fun x => sched_ok x later) = some true)) :=
  ⟨by decide, c9_retry_overwrites_schedule w1_store 1 none 7 w1_job (by decide)⟩

/-- Witness for C10: the theorem applied to the concrete one-job store,
with a status string that is not even a legal state. -/
theorem c10_set_job_status_unconditional_witness :
    findJob w1_store 1 = some w1_job ∧
    (∃ s', set_job_status_run w1_store 1 "weird" = some s' ∧
      findJob s' 1 = some { w1_job with status := "weird" } ∧
      (∀ k, k ≠ 1 → findJob s' k = findJob w1_store k) ∧
      s'.events = w1_store.events ∧
      s'.job_counter = w1_store.job_counter ∧
      s'.notify_event = w1_store.notify_event ∧
      s'.notify_channels = w1_store.notify_channels) :=
  ⟨by decide, c10_set_job_status_unconditional w1_store 1 "weird" w1_job (by decide)⟩

/-! ### C8: stall detection -/

/-- C8: the stall query returns exactly the jobs of status `doing` whose
most recent event is strictly older than now minus the threshold and
which pass the queue and task filters (a null filter matches any value);
in particular a `doing` job whose latest event is within the threshold
is never returned. -/
theorem c8_select_stalled_exact (s : Store) (nb_seconds : Int)
    (queue task_name : Option String) (now : Int) (j : Job) :
    j ∈ select_stalled_jobs_all s nb_seconds queue task_name now ↔
      (j ∈ s.jobs ∧ j.status = "doing" ∧
        (∃ e, (eventsFor s.events j.id).getLast? = some e ∧
          e.at_ < now - nb_seconds) ∧
        (queue = none ∨ queue = some j.queue_name) ∧
        (task_name = none ∨ task_name = some j.task_name)) := by
  unfold select_stalled_jobs_all
  rw [List.mem_filter]
  refine and_congr_right fun _ => ?_
  cases hl : (eventsFor s.events j.id).getLast? with
  | none => simp [hl]
  | some e =>
    simp only [hl, Bool.and_eq_true, beq_iff_eq, Bool.or_eq_true,
      decide_eq_true_eq, and_assoc]
    constructor
    · rintro ⟨h1, h2, h3, h4⟩
      exact ⟨h1, ⟨e, rfl, h2⟩, h3.symm, h4.symm⟩
    · rintro ⟨h1, ⟨e', he', h2⟩, h3, h4⟩
      cases he'
      exact ⟨h1, h2, h3.symm, h4.symm⟩

/-! ### C3: retention, amended to keep events -/

/-- The deletion test agrees with its claim-side reading. -/
theorem delete_cond_iff (s : Store) (nb_hours : Int) (queue : Option String)
    (statuses : List String) (now : Int) (j : Job) :
    delete_cond s nb_hours queue statuses now j = true ↔
      retention_matches s nb_hours queue statuses now j := by
  unfold delete_cond retention_matches
  cases hm : max_event_at (eventsFor s.events j.id) with
  | none => simp [hm]
  | some m =>
    simp only [hm, Bool.and_eq_true, beq_iff_eq, Bool.or_eq_true,
      decide_eq_true_eq, and_assoc, contains_iff_mem]
    constructor
    · rintro ⟨h1, h2, h3⟩
      exact ⟨h1, ⟨m, rfl, h2⟩, h3.symm⟩
    · rintro ⟨h1, ⟨m', hm', h2⟩, h3⟩
      cases hm'
      exact ⟨h1, h2, h3.symm⟩

/-- C3 amended: `delete_old_jobs_run` removes exactly the jobs whose
status is in the given set, whose most recent event timestamp is older
than now minus the hour threshold, and which match the queue filter —
but the removed jobs' events are NOT discarded: the events table is left
entirely unchanged (every other job is unchanged as well). -/
theorem c3_delete_old_jobs_exact (s : Store) (nb_hours : Int)
    (queue : Option String) (statuses : List String) (now : Int) :
    (delete_old_jobs_run s nb_hours queue statuses now).events = s.events ∧
    ∀ j, j ∈ (delete_old_jobs_run s nb_hours queue statuses now).jobs ↔
      (j ∈ s.jobs ∧ ¬ retention_matches s nb_hours queue statuses now j) := by
  refine ⟨rfl, fun j => ?_⟩
  unfold delete_old_jobs_run
  show j ∈ s.jobs.filter _ ↔ _
  rw [List.mem_filter]
  refine and_congr_right fun _ => ?_
  rw [← delete_cond_iff s nb_hours queue statuses now j]
  simp

/-! ### The dispatch scan -/

/-- Scan step on an eligible head. -/
theorem fetch_aux_cons_pos {s : Store} {queues : Option (List String)}
    {now : Int} {a : Job} {l : List Job}
    (h : fetch_pred s queues now a = true) :
    fetch_aux s queues now (a :: l) =
      (some { a with status := "doing" },
        { a with status := "doing" } :: l) := by
  simp [fetch_aux, h]

/-- Scan step on an ineligible head. -/
theorem fetch_aux_cons_neg {s : Store} {queues : Option (List String)}
    {now : Int} {a : Job} {l : List Job}
    (h : fetch_pred s queues now a = false) :
    fetch_aux s queues now (a :: l) =
      ((fetch_aux s queues now l).1, a :: (fetch_aux s queues now l).2) := by
  simp [fetch_aux, h]

/-- The scan either rejects every job (and leaves the list unchanged) or
splits the list around the first job passing the test, which is the one
marked `doing`. -/
theorem fetch_aux_spec (s : Store) (queues : Option (List String))
    (now : Int) (l : List Job) :
    (fetch_aux s queues now l = (none, l) ∧
      ∀ j ∈ l, fetch_pred s queues now j = false) ∨
    (∃ pre j post,
      l = pre ++ j :: post ∧
      fetch_pred s queues now j = true ∧
      (∀ k ∈ pre, fetch_pred s queues now k = false) ∧
      fetch_aux s queues now l =
        (some { j with status := "doing" },
          pre ++ { j with status := "doing" } :: post)) := by
  induction l with
  | nil => exact Or.inl ⟨rfl, by simp⟩
  | cons a l ih =>
    by_cases h : fetch_pred s queues now a = true
    · exact Or.inr ⟨[], a, l, by simp, h, by simp, fetch_aux_cons_pos h⟩
    · have hf : fetch_pred s queues now a = false := by
        simpa using h
      rcases ih with ⟨heq, hall⟩ | ⟨pre, j, post, hl, hj, hpre, heq⟩
      · refine Or.inl ⟨?_, ?_⟩
        · rw [fetch_aux_cons_neg hf, heq]
        · intro k hk
          rcases List.mem_cons.mp hk with rfl | hk
          · exact hf
          · exact hall k hk
      · refine Or.inr ⟨a :: pre, j, post, by rw [hl]; rfl, hj, ?_, ?_⟩
        · intro k hk
          rcases List.mem_cons.mp hk with rfl | hk
          · exact hf
          · exact hpre k hk
        · rw [fetch_aux_cons_neg hf, heq]
          rfl

/-- Membership in `current_locks` in the claim's vocabulary. -/
theorem mem_current_locks (s : Store) (lk : Option String) :
    lk ∈ current_locks s ↔
      ∃ k, k ∈ s.jobs ∧ k.status = "doing" ∧ k.lock = lk := by
  unfold current_locks
  simp only [List.mem_map, List.mem_filter, beq_iff_eq]
  constructor
  · rintro ⟨k, ⟨hk, hst⟩, hlk⟩
    exact ⟨k, hk, hst, hlk⟩
  · rintro ⟨k, hk, hst, hlk⟩
    exact ⟨k, ⟨hk, hst⟩, hlk⟩

/-- The claim-side eligibility condition coincides with the scan test of
`fetch_job_one`. -/
theorem eligible_iff (s : Store) (queues : Option (List String))
    (now : Int) (j : Job) :
    eligible s queues now j ↔ fetch_pred s queues now j = true := by
  unfold eligible fetch_pred
  constructor
  · rintro ⟨h1, h2, h3, h4⟩
    simp only [Bool.and_eq_true]
    refine ⟨⟨⟨beq_iff_eq.mpr h1, ?_⟩, ?_⟩, ?_⟩
    · cases queues with
      | none => rfl
      | some qs => exact contains_iff_mem.mpr (h2 qs rfl)
    · unfold sched_ok
      cases hs : j.scheduled_at with
      | none => rfl
      | some t => exact decide_eq_true (h3 t hs)
    · cases hc : (current_locks s).contains j.lock with
      | false => rfl
      | true =>
        exact absurd ((mem_current_locks s j.lock).mp
          (contains_iff_mem.mp hc)) h4
  · intro hb
    simp only [Bool.and_eq_true] at hb
    obtain ⟨⟨⟨hb1, hb2⟩, hb3⟩, hb4⟩ := hb
    refine ⟨by simpa using hb1, ?_, ?_, ?_⟩
    · intro qs hqs
      subst hqs
      exact contains_iff_mem.mp hb2
    · intro t ht
      unfold sched_ok at hb3
      rw [ht] at hb3
      exact of_decide_eq_true hb3
    · intro hex
      have hc : (current_locks s).contains j.lock = true :=
        contains_iff_mem.mpr ((mem_current_locks s j.lock).mpr hex)
      rw [hc] at hb4
      simp at hb4

/-- A job passing the scan test has status `todo`. -/
theorem fetch_pred_status {s : Store} {queues : Option (List String)}
    {now : Int} {j : Job} (h : fetch_pred s queues now j = true) :
    j.status = "todo" := by
  unfold fetch_pred at h
  simp only [Bool.and_eq_true, beq_iff_eq] at h
  exact h.1.1.1

/-- A job passing the scan test has a lock not currently held. -/
theorem fetch_pred_lock {s : Store} {queues : Option (List String)}
    {now : Int} {j : Job} (h : fetch_pred s queues now j = true) :
    ¬ j.lock ∈ current_locks s := by
  unfold fetch_pred at h
  simp only [Bool.and_eq_true] at h
  intro hm
  have hc : (current_locks s).contains j.lock = true :=
    contains_iff_mem.mpr hm
  have := h.2
  rw [hc] at this
  simp at this

/-! ### C6: dispatch returns the first eligible job -/

/-- C6: `fetch_job_one` scans jobs in creation order. When it returns
the sentinel, no job of the store is eligible and the store is left
unchanged; when it returns a job, the store's job list splits around the
first eligible job in creation order, every earlier job being
ineligible, the returned record is that job with status set to `doing`,
and the store is updated by exactly that status change plus one
`started` event. In particular a returned job was in status `todo` with
an elapsed (or absent) `scheduled_at`. -/
theorem c6_fetch_first_eligible (s : Store) (queues : Option (List String))
    (now : Int) :
    ((fetch_job_one s queues now).1 = none →
      (fetch_job_one s queues now).2 = s ∧
        ∀ j ∈ s.jobs, ¬ eligible s queues now j) ∧
    (∀ r, (fetch_job_one s queues now).1 = some r →
      ∃ pre j post,
        s.jobs = pre ++ j :: post ∧
        (∀ k ∈ pre, ¬ eligible s queues now k) ∧
        eligible s queues now j ∧
        r = { j with status := "doing" } ∧
        (fetch_job_one s queues now).2 =
          { s with jobs := pre ++ { j with status := "doing" } :: post,
                   events := appendEvent s.events j.id
                     { type := "started", at_ := now } }) := by
  rcases fetch_aux_spec s queues now s.jobs with
    ⟨heq, hall⟩ | ⟨pre, j, post, hl, hj, hpre, heq⟩
  · have hfetch : fetch_job_one s queues now = (none, s) := by
      unfold fetch_job_one
      rw [heq]
    rw [hfetch]
    constructor
    · intro _
      refine ⟨rfl, fun k hk he => ?_⟩
      exact absurd ((eligible_iff s queues now k).mp he)
        (by simp [hall k hk])
    · intro r hr
      exact absurd hr (by simp)
  · have hfetch : fetch_job_one s queues now =
        (some { j with status := "doing" },
          { s with jobs := pre ++ { j with status := "doing" } :: post,
                   events := appendEvent s.events j.id
                     { type := "started", at_ := now } }) := by
      unfold fetch_job_one
      rw [heq]
    rw [hfetch]
    constructor
    · intro hr
      exact absurd hr (by simp)
    · intro r hr
      have hr' : r = { j with status := "doing" } := by
        have : some ({ j with status := "doing" } : Job) = some r := hr
        exact (Option.some.inj this).symm
      refine ⟨pre, j, post, hl, ?_, ?_, hr', rfl⟩
      · intro k hk he
        exact absurd ((eligible_iff s queues now k).mp he)
          (by simp [hpre k hk])
      · exact (eligible_iff s queues now j).mpr hj

/-- Witness for C6: the theorem applied to the concrete one-job store,
whose single job is eligible. -/
theorem c6_fetch_first_eligible_witness :
    ∃ pre j post,
      w1_store.jobs = pre ++ j :: post ∧
      (∀ k ∈ pre, ¬ eligible w1_store none 5 k) ∧
      eligible w1_store none 5 j ∧
      ({ w1_job with status := "doing" } : Job) =
        { j with status := "doing" } ∧
      (fetch_job_one w1_store none 5).2 =
        { w1_store with
          jobs := pre ++ { j with status := "doing" } :: post,
          events := appendEvent w1_store.events j.id
            { type := "started", at_ := 5 } } :=
  (c6_fetch_first_eligible w1_store none 5).2
    { w1_job with status := "doing" } (by decide)

/-! ### C4 amended: fetch never touches a terminal job -/

/-- C4 amended: once a job is `succeeded` or `failed`, `fetch_job_one`
never changes it — the terminal record survives dispatch untouched (the
scan only selects `todo` jobs). The original claim fails for
`finish_job_run` and `set_job_status_run`, which overwrite the status
unconditionally (see the counterexample). -/
theorem c4_fetch_preserves_terminal (s : Store)
    (queues : Option (List String)) (now : Int) (j : Job)
    (hmem : j ∈ s.jobs)
    (hterm : j.status = "succeeded" ∨ j.status = "failed") :
    j ∈ (fetch_job_one s queues now).2.jobs := by
  rcases fetch_aux_spec s queues now s.jobs with
    ⟨heq, _⟩ | ⟨pre, j0, post, hl, hj0, _, heq⟩
  · have hfetch : fetch_job_one s queues now = (none, s) := by
      unfold fetch_job_one
      rw [heq]
    rw [hfetch]
    exact hmem
  · have hfetch : (fetch_job_one s queues now).2.jobs =
        pre ++ { j0 with status := "doing" } :: post := by
      unfold fetch_job_one
      rw [heq]
    rw [hfetch]
    rw [hl] at hmem
    rcases List.mem_append.mp hmem with h | h
    · exact List.mem_append.mpr (Or.inl h)
    · rcases List.mem_cons.mp h with h | h
      · subst h
        have hst : j.status = "todo" := fetch_pred_status hj0
        rcases hterm with ht | ht <;> rw [ht] at hst <;>
          exact absurd hst (by decide)
      · exact List.mem_append.mpr
          (Or.inr (List.mem_cons.mpr (Or.inr h)))

/-- Witness for C4 at the concrete store holding a succeeded job. -/
theorem c4_fetch_preserves_terminal_witness :
    c4_job ∈ c4_store.jobs ∧
    (c4_job.status = "succeeded" ∨ c4_job.status = "failed") ∧
    c4_job ∈ (fetch_job_one c4_store none 5).2.jobs :=
  ⟨by decide, Or.inl rfl,
    c4_fetch_preserves_terminal c4_store none 5 c4_job (by decide)
      (Or.inl rfl)⟩

/-! ### C5 amended: the lock-exclusion invariant -/

/-- Submission preserves lock exclusion: the new job starts in `todo`. -/
theorem lockExclusion_append_todo {jobs : List Job} {nj : Job}
    (hnj : nj.status = "todo")
    (hs : jobs.Pairwise (fun a b => ¬ conflict a b)) :
    (jobs ++ [nj]).Pairwise (fun a b => ¬ conflict a b) := by
  rw [List.pairwise_append]
  refine ⟨hs, by simp, ?_⟩
  intro a _ b hb hc
  rcases List.mem_singleton.mp hb with rfl
  rcases hc with ⟨_, hbd, _, _⟩
  rw [hnj] at hbd
  exact absurd hbd (by decide)

/-- Updating one job to a non-`doing` status preserves lock exclusion. -/
theorem pairwise_update_not_doing (l : List Job) (id : Nat) (f : Job → Job)
    (hf : ∀ x, ¬ (f x).status = "doing")
    (h : l.Pairwise (fun a b => ¬ conflict a b)) :
    (l.map (fun x => if x.id == id then f x else x)).Pairwise
      (fun a b => ¬ conflict a b) := by
  refine List.Pairwise.map _ ?_ h
  intro a b hab hc
  rcases hc with ⟨had, hbd, hann, heql⟩
  by_cases hia : (a.id == id) = true
  · rw [if_pos hia] at had
    exact hf a had
  · rw [if_neg hia] at had hann heql
    by_cases hib : (b.id == id) = true
    · rw [if_pos hib] at hbd
      exact hf b hbd
    · rw [if_neg hib] at hbd heql
      exact hab ⟨had, hbd, hann, heql⟩

/-- One allowed operation preserves the lock-exclusion property. -/
theorem lockExclusion_step (s : Store) (op : Op)
    (hop : opAllowed op = true) (hs : lockExclusion s) :
    lockExclusion (applyOp s op) := by
  cases op with
  | defer t l ql a sc q now =>
    simp only [applyOp]
    unfold defer_job_one
    by_cases h : (s.jobs.any fun job => job.queueing_lock == ql) = true
    · rw [if_pos h]
      exact hs
    · rw [if_neg h]
      show List.Pairwise _ (s.jobs ++ [_])
      exact lockExclusion_append_todo rfl hs
  | fetch queues now =>
    simp only [applyOp]
    rcases fetch_aux_spec s queues now s.jobs with
      ⟨heq, _⟩ | ⟨pre, j, post, hl, hj, _, heq⟩
    · have hfetch : fetch_job_one s queues now = (none, s) := by
        unfold fetch_job_one
        rw [heq]
      rw [hfetch]
      exact hs
    · have hjobs : (fetch_job_one s queues now).2.jobs =
          pre ++ { j with status := "doing" } :: post := by
        unfold fetch_job_one
        rw [heq]
      unfold lockExclusion
      rw [hjobs]
      unfold lockExclusion at hs
      rw [hl] at hs
      rw [List.pairwise_append] at hs ⊢
      obtain ⟨hpre, hjpost, hcross⟩ := hs
      rw [List.pairwise_cons] at hjpost ⊢
      obtain ⟨hjp, hpost⟩ := hjpost
      have hlock := fetch_pred_lock hj
      have hjobs_mem : ∀ k : Job, k ∈ pre ∨ k ∈ post → k ∈ s.jobs := by
        intro k hk
        rw [hl]
        rcases hk with hk | hk
        · exact List.mem_append.mpr (Or.inl hk)
        · exact List.mem_append.mpr
            (Or.inr (List.mem_cons.mpr (Or.inr hk)))
      refine ⟨hpre, ⟨?_, hpost⟩, ?_⟩
      · intro b hb hc
        rcases hc with ⟨_, hbd, _, heql⟩
        exact hlock ((mem_current_locks s j.lock).mpr
          ⟨b, hjobs_mem b (Or.inr hb), hbd, heql.symm⟩)
      · intro a ha b hb
        rcases List.mem_cons.mp hb with rfl | hb
        · intro hc
          rcases hc with ⟨had, _, _, heql⟩
          exact hlock ((mem_current_locks s j.lock).mpr
            ⟨a, hjobs_mem a (Or.inl ha), had, heql⟩)
        · exact hcross a ha b (List.mem_cons.mpr (Or.inr hb))
  | finish id st sc now =>
    have hstne : ¬ st = "doing" := by
      have hst : (st == "todo" || st == "succeeded" || st == "failed") =
          true := hop
      simp only [Bool.or_eq_true, beq_iff_eq] at hst
      rcases hst with (h | h) | h <;> subst h <;> decide
    simp only [applyOp]
    unfold finish_job_run
    by_cases hany : (s.jobs.any fun j => j.id == id) = true
    · rw [if_pos hany]
      by_cases ht : (st == "todo") = true
      · rw [if_pos ht]
        show List.Pairwise _ (s.jobs.map _)
        exact pairwise_update_not_doing s.jobs id _
          (fun x => hstne) hs
      · rw [if_neg ht]
        show List.Pairwise _ (s.jobs.map _)
        exact pairwise_update_not_doing s.jobs id _
          (fun x => hstne) hs
    · rw [if_neg hany]
      exact hs
  | stalled nb q tn now => exact hs
  | delete nb q sts now =>
    simp only [applyOp]
    unfold delete_old_jobs_run
    show List.Pairwise _ (s.jobs.filter _)
    exact List.Pairwise.sublist (List.filter_sublist s.jobs) hs
  | setStatus id st => exact absurd hop (by simp [opAllowed])
  | listen chs => exact hs

/-- Every run of allowed operations from the reset store keeps the
lock-exclusion property, by induction along the run. -/
theorem lockExclusion_foldl (ops : List Op) :
    ∀ s, lockExclusion s → (∀ op ∈ ops, opAllowed op = true) →
      lockExclusion (ops.foldl applyOp s) := by
  induction ops with
  | nil =>
    intro s hs _
    exact hs
  | cons op ops ih =>
    intro s hs hall
    rw [List.foldl_cons]
    exact ih _ (lockExclusion_step s op (hall op (List.mem_cons_self op ops)) hs)
      (fun o ho => hall o (List.mem_cons.mpr (Or.inr ho)))

/-- C5 amended: in every state reachable from the empty store by the
store's operations other than the test-only `set_job_status_run`
backdoor (and with `finish_job_run` restricted to its documented target
statuses `todo`, `succeeded`, `failed`), no two jobs sharing the same
non-null lock value are simultaneously in status `doing`. The unamended
claim fails because `set_job_status_run` can force any status (see the
counterexample). -/
theorem c5_lock_exclusion_invariant (ops : List Op)
    (h : ∀ op ∈ ops, opAllowed op = true) :
    lockExclusion (runOps ops) :=
  lockExclusion_foldl ops Store.reset List.Pairwise.nil h

/-- Witness for C5: a defer, fetch, retry run of allowed operations. -/
theorem c5_lock_exclusion_invariant_witness :
    (∀ op ∈ c5w_ops, opAllowed op = true) ∧
    lockExclusion (runOps c5w_ops) :=
  ⟨by decide, c5_lock_exclusion_invariant c5w_ops (by decide)⟩

end Procrastinate
